import Mathlib

/-!
Verification of the biosignal acquisition / band-power / adaptive-control core
of the repository (src/BLEDataCollector/BLEDataCollector.py,
src/bci_control/brainflow_stream.py, src/game/game.py).

Modelling conventions:
* Python floats are modelled as rationals (ℚ).  The IEEE value NaN, which the
  estimator deliberately produces for channels with non-positive total power
  (np.where(total_power <= 0, np.nan, total_power)), is modelled by the
  inductive `FVal` with a distinguished `nan` constructor.
* scipy.signal.welch and math/np log10 are external library collaborators, not
  repository code; they are modelled as uninterpreted function parameters
  collected in the structure `ExtLib`.  All repository-side logic around them is
  translated faithfully.
* Exceptions are modelled with `Except String`; a Python `raise` is `.error`,
  a normal return is `.ok`.
* numpy arrays are modelled by `NpArray` (an explicit shape plus the flattened
  data), so that the source's `data.ndim != 2` check is expressible.
-/

/- Batteries marks rational arithmetic `@[irreducible]`, which blocks `decide`
and `rfl` evaluation of the concrete witnesses below; restore ordinary
definitional unfolding for it. -/
set_option allowUnsafeReducibility true
attribute [semireducible] Rat.inv Rat.mul Rat.add Rat.sub Rat.ofScientific

/-- Model of a Python float value: either an ordinary (finite) number or NaN.
Comparisons with NaN are false, mirroring IEEE semantics used by numpy. -/
inductive FVal where
  | nan : FVal
  | val : ℚ → FVal
deriving DecidableEq, Repr

/-- `x > 0` on a float value: NaN compares false (numpy: nan > 0 is False). -/
def fvalPos : FVal → Bool
  | FVal.nan => false
  | FVal.val q => decide (0 < q)

/-- Float division; NaN propagates.  Division by zero yields NaN (this branch
is unreachable on the executed paths of the source, which guard the
denominator with a strict positivity test first). -/
def fvalDiv : FVal → FVal → FVal
  | FVal.val a, FVal.val b => if b = 0 then FVal.nan else FVal.val (a / b)
  | _, _ => FVal.nan

/-- Python list slicing `l[-n:]` for a non-negative count `n`.
For `n ≥ 1` this is the last `min n (length l)` elements; for `n = 0`,
`l[-0:]` is `l[0:]`, i.e. the WHOLE list (Python negative-zero quirk). -/
def pyTailSlice (l : List ℚ) (n : ℕ) : List ℚ :=
  if n = 0 then l else l.drop (l.length - n)

/-- The tail read as the specification describes it ("the last n values of
that channel's series ... or the whole series when it holds fewer than n
values").  Second definition, written from the claim's words, for comparison
with the source's `pyTailSlice`. -/
def specTailRead (l : List ℚ) (n : ℕ) : List ℚ :=
  l.drop (l.length - n)

/- ### BLEDataCollector (src/BLEDataCollector/BLEDataCollector.py) -/

/-- The two decode-failure exception types caught by `_on_data_received`
(lines 57-58): `json.JSONDecodeError` and `UnicodeDecodeError`. -/
inductive DecErr where
  | jsonDecodeError : DecErr
  | unicodeDecodeError : DecErr
deriving DecidableEq, Repr

/-- An incoming BLE frame, abstracting `data : bytearray`:
either it fails `json.loads(data.decode())` with one of the two caught
exception types, or it decodes to a JSON object whose keys A and B hold the
number arrays `a` and `b` (`res.get('A', [])` / `res.get('B', [])`, so a
missing key is the empty list). -/
inductive BleFrame where
  | malformed : DecErr → BleFrame
  | wellFormed : List ℚ → List ℚ → BleFrame
deriving DecidableEq, Repr

/-- `json.loads(data.decode())` followed by `res.get('A', [])` and
`res.get('B', [])`, abstracted over the byte-level payload. -/
def decodeFrame : BleFrame → Except DecErr (List ℚ × List ℚ)
  | BleFrame.malformed e => Except.error e
  | BleFrame.wellFormed a b => Except.ok (a, b)

/-- The collector's buffered channel series, `self.processed_data` with keys
A and B (line 29).  The `count`/`rate` fields of the source are wall-clock
throughput statistics (lines 47-52) and are outside the claims. -/
structure CollectorBuf where
  chanA : List ℚ
  chanB : List ℚ
deriving DecidableEq, Repr

/-- `BLEDataCollector._on_data_received` (lines 46-58), restricted to its
effect on the buffered series.  Returns the new buffer state and whether an
ERROR log entry was written.  The try/except catches exactly
`(json.JSONDecodeError, UnicodeDecodeError)`; on such a failure the frame is
logged and dropped and the function returns normally (total function here:
no exception escapes). -/
def on_data_received (s : CollectorBuf) (f : BleFrame) : CollectorBuf × Bool :=
  match decodeFrame f with
  | Except.ok ab => ({ chanA := s.chanA ++ ab.1, chanB := s.chanB ++ ab.2 }, false)
  | Except.error _ => (s, true)

/-- `BLEDataCollector.get_current_data` (lines 91-95):
`[processed_data['A'][-num_samples:], processed_data['B'][-num_samples:]]`. -/
def get_current_data (s : CollectorBuf) (num_samples : ℕ) : List (List ℚ) :=
  [pyTailSlice s.chanA num_samples, pyTailSlice s.chanB num_samples]

/- ### Adaptive controller comparison step (src/game/game.py lines 142-150) -/

/-- An adaptation signal emitted by the processing tick: `increase` models the
`self.ball.increase_speed()` call, `decrease` the `self.ball.decrease_speed()`
call; "none" is the absence of any emission. -/
inductive Signal where
  | increase : Signal
  | decrease : Signal
deriving DecidableEq, Repr

/-- The comparison-and-emission part of one `_bci_processing_loop` iteration
(game.py lines 142-150), after the live value `gameVal` has been computed:
two independent `if` statements may emit a signal, then
`self.previous_game_ratio = self.game_ratio` runs regardless.
Returns (emitted signals in order, new previous value). -/
def bciAdjustStep (gameVal calibVal prevVal : ℚ) : List Signal × ℚ :=
  ((if calibVal < gameVal ∧ gameVal ≠ prevVal then [Signal.increase] else []) ++
   (if gameVal < calibVal ∧ gameVal ≠ prevVal then [Signal.decrease] else []),
   gameVal)

/- ### Band-power estimator (src/bci_control/brainflow_stream.py lines 360-481) -/

/-- A numpy array: its shape and its flattened (row-major) data.  Keeping the
shape explicit lets the source's `data.ndim != 2` check be modelled. -/
structure NpArray where
  shape : List ℕ
  flat : List ℚ
deriving DecidableEq, Repr

/-- Number of rows (`n_channels = data.shape[0]`). -/
def NpArray.nRows (a : NpArray) : ℕ := a.shape.getD 0 0

/-- Number of columns (`n_samples = data.shape[1]`). -/
def NpArray.nCols (a : NpArray) : ℕ := a.shape.getD 1 0

/-- The rows of a 2-D array. -/
def NpArray.rows (a : NpArray) : List (List ℚ) :=
  (List.range a.nRows).map (fun i => (a.flat.drop (i * a.nCols)).take a.nCols)

/-- Whether all rows of a list-of-lists have the same length (the condition
under which `np.array` builds a rectangular 2-D array; a ragged input raises
`ValueError` in numpy). -/
def allEqLen (rows : List (List ℚ)) : Bool :=
  rows.all (fun r => r.length = (rows.headD []).length)

/-- `np.array(rows)` for a list of per-channel sample lists. -/
def npFromRows (rows : List (List ℚ)) : Except String NpArray :=
  if allEqLen rows then
    Except.ok ⟨[rows.length, (rows.headD []).length], rows.flatten⟩
  else
    Except.error "ValueError: setting an array element with a sequence (ragged nested sequences)"

/-- External library collaborators of the estimator, not repository code:
`scipy.signal.welch` (given the channel rows, the sampling rate, nperseg,
noverlap and the detrend mode, it returns frequencies and the per-channel
PSD rows) and base-10 logarithm.  They are uninterpreted parameters; every
theorem below quantifies over them or instantiates them explicitly. -/
structure ExtLib where
  welch : List (List ℚ) → ℚ → ℤ → ℤ → String → List ℚ × List (List ℚ)
  log10v : ℚ → ℚ

/-- Python's `round` (banker's rounding, half to even) composed with `int`. -/
def pyRound (q : ℚ) : ℤ :=
  let f : ℤ := ⌊q⌋
  let r : ℚ := q - (f : ℚ)
  if r < 1 / 2 then f
  else if 1 / 2 < r then f + 1
  else if f % 2 = 0 then f else f + 1

/-- Default Welch window length in seconds (line 430):
`max(1.0, min(4.0, n_samples / sf))`.  (Note: in Python, `n_samples / sf`
with `sf = 0.0` would raise ZeroDivisionError; in ℚ it is 0.  No claim
touches `sf = 0` with a defaulted window.) -/
def windowSecDefault (n_samples : ℕ) (sf : ℚ) : ℚ :=
  max 1 (min 4 ((n_samples : ℚ) / sf))

/-- Guard-railed segment length (lines 431-432):
`nperseg = int(round(window_sec * sf)); nperseg = max(8, min(nperseg, n_samples))`. -/
def npersegOf (n_samples : ℕ) (ws sf : ℚ) : ℤ :=
  max 8 (min (pyRound (ws * sf)) (n_samples : ℤ))

/-- Segment overlap (line 433):
`noverlap = int(round(nperseg * overlap)) if 0 <= overlap < 1 else 0`. -/
def noverlapOf (nperseg : ℤ) (overlap : ℚ) : ℤ :=
  if 0 ≤ overlap ∧ overlap < 1 then pyRound ((nperseg : ℚ) * overlap) else 0

/-- The Welch call of lines 428-446: resolve the window default, compute
nperseg/noverlap and invoke the external PSD estimator on the channel rows.
Returns `(freqs, Pxx)`. -/
def welchOut (ext : ExtLib) (data : NpArray) (sf : ℚ) (window_sec : Option ℚ)
    (overlap : ℚ) (detrend : String) : List ℚ × List (List ℚ) :=
  let ws := window_sec.getD (windowSecDefault data.nCols sf)
  let np := npersegOf data.nCols ws sf
  ext.welch data.rows sf np (noverlapOf np overlap) detrend

/-- Membership of a frequency in the half-open band `[lo, hi)`
(line 455: `np.logical_and(freqs >= lo, freqs < hi)`). -/
def inBand (lo hi f : ℚ) : Bool := decide (lo ≤ f ∧ f < hi)

/-- `np.trapz(ps, fs)` over a list of (frequency, PSD) points: the sum of
trapezoid areas over consecutive points.  Empty and singleton selections
integrate to 0, exactly as numpy's trapezoidal rule does. -/
def trapz : List (ℚ × ℚ) → ℚ
  | [] => 0
  | a :: rest =>
    match rest with
    | [] => 0
    | b :: _ => (b.1 - a.1) * (a.2 + b.2) / 2 + trapz rest

/-- The PSD points of one channel falling in the band
(`Pxx[:, idx], freqs[idx]` for `idx = (freqs >= lo) & (freqs < hi)`). -/
def bandPoints (freqs row : List ℚ) (lo hi : ℚ) : List (ℚ × ℚ) :=
  (freqs.zip row).filter (fun p => inBand lo hi p.1)

/-- Integrated band power of one channel (line 459); a band that selects no
frequency bins yields 0 (line 457), which `trapz` on the empty selection
already gives. -/
def bandPower (freqs row : List ℚ) (lo hi : ℚ) : ℚ :=
  trapz (bandPoints freqs row lo hi)

/-- The validation performed inside the integration loop of lines 452-454:
bands are visited in declaration order and the first band with `hi <= lo`
raises ValueError.  (In the source the raise happens inside the same loop
that integrates; since integration of earlier bands has no observable effect
once the call raises, scanning the bands first is observationally equal.) -/
def checkBands : List (String × ℚ × ℚ) → Except String Unit
  | [] => Except.ok ()
  | (name, lo, hi) :: rest =>
      if hi ≤ lo then Except.error ("Invalid band " ++ name ++ " with lo>=hi")
      else checkBands rest

/-- The default EEG bands of lines 418-425, in declaration order. -/
def defaultBands : List (String × ℚ × ℚ) :=
  [("delta", 1, 4), ("theta", 4, 8), ("alpha", 8, 13), ("beta", 13, 30), ("gamma", 30, 80)]

/-- The absolute band-power matrix `bp` of lines 449-459, one row per channel,
one column per declared band. -/
def absPowers (freqs : List ℚ) (Pxx : List (List ℚ))
    (bandsL : List (String × ℚ × ℚ)) : List (List ℚ) :=
  Pxx.map (fun row => bandsL.map (fun b => bandPower freqs row b.2.1 b.2.2))

/-- Per-channel total power over the reference range (line 472). -/
def totalPowers (freqs : List ℚ) (Pxx : List (List ℚ)) (lo hi : ℚ) : List ℚ :=
  Pxx.map (fun row => bandPower freqs row lo hi)

/-- Lines 474-475: `total_power = np.where(total_power <= 0, np.nan,
total_power); bp = bp / total_power[:, None]`.  A channel whose total power
is non-positive gets a NaN row (division of a real row by NaN); a channel
with positive total power is divided normally. -/
def relativize (bp : List (List ℚ)) (totals : List ℚ) : List (List FVal) :=
  (bp.zip totals).map (fun rt =>
    if rt.2 ≤ 0 then rt.1.map (fun _ => FVal.nan)
    else rt.1.map (fun p => FVal.val (p / rt.2)))

/-- The reference range used by relative normalization: the caller-supplied
`total_band`, or `(0, sf/2 - 1e-12)` (line 464) when none is given. -/
def resolveTB (sf : ℚ) : Option (ℚ × ℚ) → ℚ × ℚ
  | Option.none => (0, sf / 2 - 1 / 1000000000000)
  | Option.some p => p

/-- Lines 469-475 given a resolved reference range: raise if the range
selects no frequency bins, otherwise normalize. -/
def relNormalize (tb : ℚ × ℚ) (freqs : List ℚ) (Pxx : List (List ℚ))
    (bp : List (List ℚ)) : Except String (List (List FVal)) :=
  if (freqs.filter (fun f => inBand tb.1 tb.2 f)).isEmpty then
    Except.error "total_band does not include any frequency bins; increase window length or adjust band."
  else
    Except.ok (relativize bp (totalPowers freqs Pxx tb.1 tb.2))

/-- The whole relative-normalization block of lines 461-475; when `relative`
is false the absolute powers pass through (as ordinary float values). -/
def relPart (relative : Bool) (sf : ℚ) (total_band : Option (ℚ × ℚ))
    (freqs : List ℚ) (Pxx : List (List ℚ)) (bp : List (List ℚ)) :
    Except String (List (List FVal)) :=
  if relative then
    match total_band with
    | Option.none => relNormalize (resolveTB sf total_band) freqs Pxx bp
    | Option.some p =>
        if p.2 ≤ p.1 then Except.error "Invalid total_band with lo>=hi"
        else relNormalize (resolveTB sf total_band) freqs Pxx bp
  else
    Except.ok (bp.map (fun r => r.map FVal.val))

/-- `np.finfo(float).tiny`, the floor of the log transform. -/
def finfoTiny : ℚ := 1 / 2 ^ 1022

/-- Line 479: `10 * log10(max(power, tiny))`; NaN propagates through numpy's
maximum and log10. -/
def logMap (ext : ExtLib) : FVal → FVal
  | FVal.nan => FVal.nan
  | FVal.val q => FVal.val (10 * ext.log10v (max q finfoTiny))

/-- `compute_band_powers` (lines 360-481).  Faithful translation: the 2-D
rank check; band defaulting; Welch parameters and the external PSD call;
per-band trapezoidal integration over the half-open bands with fail-fast
validation of inverted bands in declaration order; optional relative
normalization with NaN for non-positive totals; optional log scaling; result
is (powers, labels in declaration order). -/
def compute_band_powers (ext : ExtLib) (data : NpArray) (sf : ℚ)
    (bands : Option (List (String × ℚ × ℚ))) (window_sec : Option ℚ)
    (overlap : ℚ) (detrend : String) (relative : Bool) (return_log : Bool)
    (total_band : Option (ℚ × ℚ)) :
    Except String (List (List FVal) × List String) :=
  if data.shape.length = 2 then
    let bandsL := bands.getD defaultBands
    let fp := welchOut ext data sf window_sec overlap detrend
    match checkBands bandsL with
    | Except.error m => Except.error m
    | Except.ok _ =>
      let bp := absPowers fp.1 fp.2 bandsL
      match relPart relative sf total_band fp.1 fp.2 bp with
      | Except.error m => Except.error m
      | Except.ok bpF =>
          Except.ok
            ((if return_log then bpF.map (fun r => r.map (logMap ext)) else bpF),
             bandsL.map (fun b => b.1))
  else
    Except.error "data must be 2D with shape (n_channels, n_samples)."

/- ### Game-side pipeline (src/game/game.py) -/

/-- `Game.remove_dc_offset` (lines 65-66): `np.array(data) - np.mean(data)`.
`np.mean` of a 2-D array is the mean over ALL elements (a single scalar), so
one global mean is subtracted from every sample of every channel.  A ragged
input makes `np.array` raise. -/
def remove_dc_offset (rows : List (List ℚ)) : Except String NpArray :=
  match npFromRows rows with
  | Except.error m => Except.error m
  | Except.ok arr =>
      Except.ok ⟨arr.shape, arr.flat.map (fun x => x - arr.flat.sum / (arr.flat.length : ℚ))⟩

/-- DC-offset removal as the specification describes it: "mean is computed
and subtracted independently per channel over the exact window being
analyzed".  Second definition, written from the spec's words, for comparison
with the source's `remove_dc_offset`. -/
def perChannelDcRemoved (rows : List (List ℚ)) : List (List ℚ) :=
  rows.map (fun r => r.map (fun x => x - r.sum / (r.length : ℚ)))

/-- Python list/array indexing `l[i]` for a non-negative index: IndexError
when out of bounds. -/
def pyIndex {α : Type} (l : List α) (i : ℕ) : Except String α :=
  match l.get? i with
  | Option.some x => Except.ok x
  | Option.none => Except.error "IndexError"

/-- `bool(row > 0)` for a numpy 1-D array `row`: elementwise comparison
followed by Python truth-testing, which succeeds only for a size-1 array
(`if powers[3] > 0:` in the source applies this to a ROW of the band-power
matrix).  NaN compares as not-greater (false). -/
def rowTruthyPos : List FVal → Except String Bool
  | [v] => Except.ok (fvalPos v)
  | _ => Except.error "The truth value of an array with more than one element is ambiguous"

/-- Elementwise division of two size-1 rows (`powers[2] / powers[3]` on the
path where the truth test above has succeeded, which forces size 1); any
other shape combination is unreachable behind that test. -/
def singletonDiv : List FVal → List FVal → Except String FVal
  | [a], [b] => Except.ok (fvalDiv a b)
  | _, _ => Except.error "operands could not be broadcast together"

/-- The try-block of `Game._compute_calibration_results` (lines 165-177):
global DC removal of the last 3200 samples per channel, band powers at
sf = 64 with relative normalization and all other arguments defaulted, then
`if powers[3] > 0: ratio = powers[2] / powers[3] else: ratio = 1.0`.
Note `powers` has shape (n_channels, n_bands), so `powers[3]` indexes the
CHANNEL axis. -/
def calibTryBlock (ext : ExtLib) (a b : List ℚ) : Except String FVal := do
  let eeg ← remove_dc_offset [pyTailSlice a 3200, pyTailSlice b 3200]
  let pr ← compute_band_powers ext eeg 64 Option.none Option.none (1 / 2)
    "constant" true false Option.none
  let powers := pr.1
  let p3 ← pyIndex powers 3
  let cond ← rowTruthyPos p3
  if cond then
    let p2 ← pyIndex powers 2
    singletonDiv p2 p3
  else
    pure (FVal.val 1)

/-- `Game._compute_calibration_results` (lines 157-180): with no accumulated
calibration samples the baseline is the default constant 0.4 and no exception
is raised; otherwise the try-block runs, and any exception it raises is
caught, setting the baseline to the fallback constant 1.0. -/
def compute_calibration_results (ext : ExtLib) (a b : List ℚ) : FVal :=
  if a.isEmpty then FVal.val (2 / 5)
  else
    match calibTryBlock ext a b with
    | Except.ok r => r
    | Except.error _ => FVal.val 1

/-- The try-block of the Active-phase ratio update
(`Game._bci_processing_loop`, lines 130-139): global DC removal, band powers
at sf = 64 with relative normalization, then
`if powers[3] > 0: self.game_ratio = powers[2] / powers[3]` — on the else
branch the live value is left unchanged (`Option.none` here means
"no assignment").  As in calibration, `powers[3]` indexes the CHANNEL axis
of the (n_channels, n_bands) matrix. -/
def gameTryBlock (ext : ExtLib) (a b : List ℚ) : Except String (Option FVal) := do
  let eeg ← remove_dc_offset [a, b]
  let pr ← compute_band_powers ext eeg 64 Option.none Option.none (1 / 2)
    "constant" true false Option.none
  let powers := pr.1
  let p3 ← pyIndex powers 3
  let cond ← rowTruthyPos p3
  if cond then
    let p2 ← pyIndex powers 2
    let r ← singletonDiv p2 p3
    pure (Option.some r)
  else
    pure Option.none

/-- The live-value update part of one `_bci_processing_loop` iteration
(lines 126-139): pull the last 3200 samples, and if channel A is non-empty
run the try-block; any exception is caught and printed, leaving the live
value unchanged. -/
def bciRatioUpdate (ext : ExtLib) (s : CollectorBuf) (gameRatioVal : FVal) : FVal :=
  let data := get_current_data s 3200
  if (data.headD []).isEmpty then gameRatioVal
  else
    match gameTryBlock ext (data.getD 0 []) (data.getD 1 []) with
    | Except.ok (Option.some r) => r
    | Except.ok Option.none => gameRatioVal
    | Except.error _ => gameRatioVal

/-- The (lo, hi) bands `bnds` partition the half-open range [lo, hi): each
band starts where the previous one ended, the first starts at `lo`, the last
ends at `hi`, and every band is non-degenerate (`lo ≤ hi` per band). -/
def bandChain : ℚ → List (ℚ × ℚ) → ℚ → Bool
  | lo, [], hi => decide (lo = hi)
  | lo, b :: rest, hi => decide (b.1 = lo) && decide (b.1 ≤ b.2) && bandChain b.2 rest hi

/-- A trivial instantiation of the external collaborators, used to evaluate
the estimator and the game pipeline at concrete inputs. -/
def extTriv : ExtLib := ⟨fun _ _ _ _ _ => ([], []), fun _ => 0⟩

/-- External stub for the C5 witness: a two-channel PSD whose first channel
is identically zero (total power 0) and whose second channel is positive. -/
def extC5 : ExtLib :=
  ⟨fun _ _ _ _ _ => ([0, 1, 2, 3, 4], [[0, 0, 0, 0, 0], [1, 1, 1, 1, 1]]), fun _ => 0⟩

/-- Two channels of five samples, used with `extC5`. -/
def dataC5 : NpArray := ⟨[2, 5], [0, 0, 0, 0, 0, 0, 0, 0, 0, 0]⟩

/-- External stub for the calibration evaluation: a flat unit PSD at the
frequencies 8, 12, 13, 16 Hz, so that the default alpha band [8, 13)
integrates to 4 and the default beta band [13, 30) to 3 on each channel. -/
def extGame : ExtLib :=
  ⟨fun _ _ _ _ _ => ([8, 12, 13, 16], [[1, 1, 1, 1], [1, 1, 1, 1]]), fun _ => 0⟩

/-- External stub for the C6 counterexample: a single-channel PSD whose mass
sits at 2 Hz, exactly on the boundary between the bands [0, 2) and [2, 4). -/
def extC6 : ExtLib :=
  ⟨fun _ _ _ _ _ => ([0, 1, 2, 3, 4], [[0, 0, 100, 0, 0]]), fun _ => 0⟩

/-- One channel of five samples, used with `extC6`. -/
def dataC6 : NpArray := ⟨[1, 5], [0, 0, 0, 0, 0]⟩

/- ### Theorems for C1, C8, C9 -/

/-- C1: in the Active phase, each processing tick emits exactly one adaptation
signal: "increase" iff live > baseline and live ≠ previous live, "decrease"
iff live < baseline and live ≠ previous live, and nothing ("none") otherwise;
the previous live value is updated to the current live value regardless of the
branch taken, and a tick whose live value equals the previous tick's live
value emits nothing. -/
theorem C1_adaptive_signal_step (gameVal calibVal prevVal : ℚ) :
    (bciAdjustStep gameVal calibVal prevVal).2 = gameVal ∧
    ((bciAdjustStep gameVal calibVal prevVal).1 =
      if calibVal < gameVal ∧ gameVal ≠ prevVal then [Signal.increase]
      else if gameVal < calibVal ∧ gameVal ≠ prevVal then [Signal.decrease]
      else []) ∧
    (bciAdjustStep prevVal calibVal prevVal).1 = [] := by
  refine ⟨rfl, ?_, ?_⟩
  · unfold bciAdjustStep
    by_cases hinc : calibVal < gameVal ∧ gameVal ≠ prevVal
    · simp [hinc, hinc.1, hinc.2, not_lt.mpr (le_of_lt hinc.1)]
    · by_cases hdec : gameVal < calibVal ∧ gameVal ≠ prevVal
      · simp [hinc, hdec, hdec.1, hdec.2, not_lt.mpr (le_of_lt hdec.1)]
      · simp [hinc, hdec]
  · simp [bciAdjustStep]

/-- C8: a frame that fails to decode (non-UTF-8 or malformed JSON) is logged
and dropped without any error escaping the data handler; the buffered channel
series are unchanged by that frame, and a subsequent well-formed frame is
still appended normally. -/
theorem C8_decode_failure_dropped (s : CollectorBuf) (e : DecErr) (a b : List ℚ) :
    on_data_received s (BleFrame.malformed e) = (s, true) ∧
    on_data_received s (BleFrame.wellFormed a b) =
      ({ chanA := s.chanA ++ a, chanB := s.chanB ++ b }, false) ∧
    (on_data_received (on_data_received s (BleFrame.malformed e)).1
        (BleFrame.wellFormed a b)).1 =
      { chanA := s.chanA ++ a, chanB := s.chanB ++ b } := by
  refine ⟨rfl, rfl, rfl⟩

/-- C9 counterexample: with one value buffered per channel and requested count
n = 0, `get_current_data` returns the WHOLE series (Python `l[-0:]` is `l`),
whereas the claim's "last n values" reading demands the empty list. -/
theorem C9_tail_read_counterexample :
    get_current_data ⟨[1], [2]⟩ 0 = [[1], [2]] ∧
    [specTailRead [1] 0, specTailRead [2] 0] = [[], []] ∧
    ([[(1 : ℚ)], [2]] : List (List ℚ)) ≠ [[], []] := by
  refine ⟨rfl, rfl, by decide⟩

/-- C9 amended: for every buffer state and every requested count n ≥ 1, the
tail read returns, per channel, a suffix of that channel's series of length
min n (series length), i.e. the last n values in insertion order, or the whole
series when it is shorter (at n = 0 the source instead returns the whole
series, a Python slicing quirk; the snapshot-vs-backing-storage aliasing
aspect is not statable in this embedding — Python slicing does copy). -/
theorem C9_tail_read_amended (A B : List ℚ) (n : ℕ) (hn : 1 ≤ n) :
    ∃ ta tb, get_current_data ⟨A, B⟩ n = [ta, tb] ∧
      ta.length = min n A.length ∧ tb.length = min n B.length ∧
      ta.IsSuffix A ∧ tb.IsSuffix B := by
  have hn0 : n ≠ 0 := Nat.one_le_iff_ne_zero.mp hn
  refine ⟨A.drop (A.length - n), B.drop (B.length - n), ?_, ?_, ?_, ?_, ?_⟩
  · simp [get_current_data, pyTailSlice, hn0]
  · rw [List.length_drop]; omega
  · rw [List.length_drop]; omega
  · exact List.drop_suffix _ _
  · exact List.drop_suffix _ _

/-- C9 amended, witness: concrete instance with a buffer of 3 and 1 samples
and a requested count of 2. -/
theorem C9_tail_read_witness :
    ∃ ta tb, get_current_data ⟨[1, 2, 3], [4]⟩ 2 = [ta, tb] ∧
      ta.length = min 2 ([(1 : ℚ), 2, 3]).length ∧
      tb.length = min 2 ([(4 : ℚ)]).length ∧
      ta.IsSuffix [1, 2, 3] ∧ tb.IsSuffix [4] :=
  C9_tail_read_amended [1, 2, 3] [4] 2 (by decide)

/- ### Estimator theorems: C4, C7, C5 -/

/-- If some declared band has `hi <= lo`, the validation scan raises. -/
lemma checkBands_error_of_bad (L : List (String × ℚ × ℚ))
    (h : ∃ b ∈ L, b.2.2 ≤ b.2.1) : ∃ m, checkBands L = Except.error m := by
  induction L with
  | nil => rcases h with ⟨b, hb, -⟩; cases hb
  | cons x rest ih =>
    obtain ⟨nm, lo, hi⟩ := x
    by_cases hx : hi ≤ lo
    · exact ⟨"Invalid band " ++ nm ++ " with lo>=hi", by simp [checkBands, hx]⟩
    · rcases h with ⟨b, hb, hble⟩
      rcases List.mem_cons.mp hb with rfl | hbr
      · exact absurd hble hx
      · rcases ih ⟨b, hbr, hble⟩ with ⟨m, hm⟩
        exact ⟨m, by simpa [checkBands, hx] using hm⟩

/-- C4: for every input to the band-power estimator, if the input array is
not exactly 2-dimensional, or if any declared band has high ≤ low, the call
raises (returns an error) and never returns a silently coerced result. -/
theorem C4_config_fault (ext : ExtLib) (data : NpArray) (sf : ℚ)
    (bands : Option (List (String × ℚ × ℚ))) (window_sec : Option ℚ)
    (overlap : ℚ) (detrend : String) (relative return_log : Bool)
    (total_band : Option (ℚ × ℚ))
    (h : data.shape.length ≠ 2 ∨ ∃ b ∈ bands.getD defaultBands, b.2.2 ≤ b.2.1) :
    ∃ msg, compute_band_powers ext data sf bands window_sec overlap detrend
      relative return_log total_band = Except.error msg := by
  rcases h with h2 | hbad
  · exact ⟨"data must be 2D with shape (n_channels, n_samples).",
      by simp [compute_band_powers, h2]⟩
  · by_cases h2 : data.shape.length = 2
    · rcases checkBands_error_of_bad _ hbad with ⟨m, hm⟩
      exact ⟨m, by simp [compute_band_powers, h2, hm]⟩
    · exact ⟨"data must be 2D with shape (n_channels, n_samples).",
        by simp [compute_band_powers, h2]⟩

/-- C4 witness: a rank-2 input with an inverted band (5, 3) makes the call
raise. -/
theorem C4_config_fault_witness :
    ∃ msg, compute_band_powers extTriv ⟨[2, 4], [0, 0, 0, 0, 0, 0, 0, 0]⟩ 64
      (Option.some [("bad", 5, 3)]) Option.none (1 / 2) "constant" false false
      Option.none = Except.error msg :=
  C4_config_fault extTriv ⟨[2, 4], [0, 0, 0, 0, 0, 0, 0, 0]⟩ 64
    (Option.some [("bad", 5, 3)]) Option.none (1 / 2) "constant" false false
    Option.none (Or.inr (by decide))

/-- C7: the estimator is a pure function of its arguments.  The source reads
only its parameters and mutates no global state (its local `bp` buffer never
escapes), which is why it could be translated as a pure function at all; two
calls on the same frozen input are therefore the identical value — the same
power matrix and the same label list. -/
theorem C7_estimator_pure (ext : ExtLib) (data : NpArray) (sf : ℚ)
    (bands : Option (List (String × ℚ × ℚ))) (window_sec : Option ℚ)
    (overlap : ℚ) (detrend : String) (relative return_log : Bool)
    (total_band : Option (ℚ × ℚ)) :
    compute_band_powers ext data sf bands window_sec overlap detrend relative
      return_log total_band =
    compute_band_powers ext data sf bands window_sec overlap detrend relative
      return_log total_band := rfl

/-- Row `c` of the normalized matrix: a NaN row when the channel's total
power is non-positive, the scaled row otherwise. -/
lemma relativize_get? :
    ∀ (bp : List (List ℚ)) (totals : List ℚ) (c : ℕ) (row : List ℚ) (t : ℚ),
      bp.get? c = Option.some row → totals.get? c = Option.some t →
      (relativize bp totals).get? c = Option.some
        (if t ≤ 0 then row.map (fun _ => FVal.nan)
         else row.map (fun p => FVal.val (p / t))) := by
  intro bp
  induction bp with
  | nil => intro totals c row t h _; simp at h
  | cons r bp ih =>
    intro totals c row t hr ht
    cases totals with
    | nil => simp at ht
    | cons t0 ts =>
      cases c with
      | zero =>
        simp only [List.get?] at hr ht
        cases hr; cases ht
        simp [relativize]
      | succ c =>
        simp only [List.get?] at hr ht
        simpa [relativize] using ih ts c row t hr ht

/-- On the relative path with a valid reference range that selects at least
one bin, normalization succeeds and produces `relativize`. -/
lemma relPart_true_ok (sf : ℚ) (tb : Option (ℚ × ℚ)) (freqs : List ℚ)
    (Pxx : List (List ℚ)) (bp : List (List ℚ))
    (htbv : ∀ p, tb = Option.some p → p.1 < p.2)
    (hidx : (freqs.filter (fun f =>
      inBand (resolveTB sf tb).1 (resolveTB sf tb).2 f)).isEmpty = false) :
    relPart true sf tb freqs Pxx bp = Except.ok
      (relativize bp (totalPowers freqs Pxx (resolveTB sf tb).1 (resolveTB sf tb).2)) := by
  cases tb with
  | none => simp [relPart, relNormalize, hidx]
  | some p =>
    have hp := htbv p rfl
    simp [relPart, relNormalize, not_le.mpr hp, hidx]

/-- C5: in relative-normalization mode, for every channel whose total power
over the reference range is non-positive, the estimator returns NaN for that
channel's band powers — the call still returns normally, it neither crashes
nor raises a division fault — while channels with positive total power are
divided normally. -/
theorem C5_relative_nan (ext : ExtLib) (data : NpArray) (sf : ℚ)
    (bands : Option (List (String × ℚ × ℚ))) (window_sec : Option ℚ)
    (overlap : ℚ) (detrend : String) (total_band : Option (ℚ × ℚ))
    (c : ℕ) (row : List ℚ) (t : ℚ)
    (h2 : data.shape.length = 2)
    (hcb : checkBands (bands.getD defaultBands) = Except.ok ())
    (htbv : ∀ p, total_band = Option.some p → p.1 < p.2)
    (hidx : ((welchOut ext data sf window_sec overlap detrend).1.filter
      (fun f => inBand (resolveTB sf total_band).1
        (resolveTB sf total_band).2 f)).isEmpty = false)
    (hrow : (absPowers (welchOut ext data sf window_sec overlap detrend).1
      (welchOut ext data sf window_sec overlap detrend).2
      (bands.getD defaultBands)).get? c = Option.some row)
    (ht : (totalPowers (welchOut ext data sf window_sec overlap detrend).1
      (welchOut ext data sf window_sec overlap detrend).2
      (resolveTB sf total_band).1 (resolveTB sf total_band).2).get? c
        = Option.some t) :
    ∃ out, compute_band_powers ext data sf bands window_sec overlap detrend
        true false total_band
        = Except.ok (out, (bands.getD defaultBands).map (fun b => b.1)) ∧
      (t ≤ 0 → out.get? c = Option.some (row.map (fun _ => FVal.nan))) ∧
      (0 < t → out.get? c = Option.some (row.map (fun p => FVal.val (p / t)))) := by
  refine ⟨relativize
    (absPowers (welchOut ext data sf window_sec overlap detrend).1
      (welchOut ext data sf window_sec overlap detrend).2 (bands.getD defaultBands))
    (totalPowers (welchOut ext data sf window_sec overlap detrend).1
      (welchOut ext data sf window_sec overlap detrend).2
      (resolveTB sf total_band).1 (resolveTB sf total_band).2), ?_, ?_, ?_⟩
  · simp [compute_band_powers, h2, hcb,
      relPart_true_ok sf total_band _ _ _ htbv hidx]
  · intro hle
    rw [relativize_get? _ _ _ _ _ hrow ht]
    simp [hle]
  · intro hgt
    rw [relativize_get? _ _ _ _ _ hrow ht]
    simp [not_le.mpr hgt]

/-- C5 witness: with a stub PSD whose first channel is identically zero, the
first channel's total power is 0 and its band-power row is NaN, while the
call returns normally. -/
theorem C5_relative_nan_witness :
    ∃ out, compute_band_powers extC5 dataC5 64 (Option.some [("x", 0, 2)])
        Option.none (1 / 2) "constant" true false (Option.some (0, 4))
        = Except.ok (out,
            ((Option.some [("x", (0 : ℚ), (2 : ℚ))]).getD defaultBands).map (fun b => b.1)) ∧
      ((0 : ℚ) ≤ 0 → out.get? 0 = Option.some (([(0 : ℚ)]).map (fun _ => FVal.nan))) ∧
      ((0 : ℚ) < 0 → out.get? 0 = Option.some (([(0 : ℚ)]).map (fun p => FVal.val (p / 0)))) :=
  C5_relative_nan extC5 dataC5 64 (Option.some [("x", 0, 2)]) Option.none
    (1 / 2) "constant" (Option.some (0, 4)) 0 [0] 0 (by decide) (by rfl)
    (fun p hp => by cases hp; decide) (by decide) (by decide) (by decide)

/- ### Calibration theorems: C2, C10, C3 -/

/-- C2: evaluation at the failing input.  With two non-empty equal-length
calibration channels and a PSD whose relative alpha and beta powers are 1/2
and 3/8 (both positive), the claim demands a baseline of
power(alpha)/power(beta) = 4/3; the code instead raises IndexError at
`powers[3]` — the band-power matrix has shape (n_channels, n_bands) and
`powers[3]` indexes the channel axis, which has only 2 entries — and the
except clause turns this into the fallback baseline 1.0.  The empty-input
half of the claim does hold: with no accumulated samples the baseline is the
default 0.4 and nothing is raised. -/
theorem C2_baseline_indexerror :
    compute_calibration_results extGame [0, 0, 0, 0] [0, 0, 0, 0] = FVal.val 1 ∧
    calibTryBlock extGame [0, 0, 0, 0] [0, 0, 0, 0] = Except.error "IndexError" ∧
    compute_calibration_results extGame [] [] = FVal.val (2 / 5) ∧
    (compute_band_powers extGame ⟨[2, 4], [0, 0, 0, 0, 0, 0, 0, 0]⟩ 64
        Option.none Option.none (1 / 2) "constant" true false
        Option.none).toOption.map
      (fun pr => fvalDiv ((pr.1.headD []).getD 2 FVal.nan)
        ((pr.1.headD []).getD 3 FVal.nan)) = Option.some (FVal.val (4 / 3)) ∧
    FVal.val 1 ≠ FVal.val (4 / 3) := by
  refine ⟨rfl, rfl, rfl, rfl, by decide⟩

/-- C10: if the computation inside the calibration try-block raises any
exception, `_compute_calibration_results` catches it, sets the baseline to
the constant 1.0 and returns normally; this error fallback 1.0 differs from
the no-samples default 0.4. -/
theorem C10_calibration_error_fallback (ext : ExtLib) (a b : List ℚ) (msg : String)
    (ha : a ≠ []) (herr : calibTryBlock ext a b = Except.error msg) :
    compute_calibration_results ext a b = FVal.val 1 ∧
    FVal.val 1 ≠ FVal.val (2 / 5) := by
  constructor
  · have hne : a.isEmpty = false := by
      cases a with
      | nil => exact absurd rfl ha
      | cons x t => rfl
    simp [compute_calibration_results, hne, herr]
  · decide

/-- C10 witness: with the trivial external stub the PSD has no frequency
bins, so `compute_band_powers` raises inside the try-block, and the baseline
comes out as the fallback 1.0. -/
theorem C10_calibration_error_fallback_witness :
    compute_calibration_results extTriv [0] [0] = FVal.val 1 ∧
    FVal.val 1 ≠ FVal.val (2 / 5) :=
  C10_calibration_error_fallback extTriv [0] [0]
    "total_band does not include any frequency bins; increase window length or adjust band."
    (by decide) (by rfl)

/-- C3 counterexample: on the two-channel window [[0,0],[2,2]] the source's
`remove_dc_offset` subtracts the single global mean 1 from every sample,
yielding [[-1,-1],[1,1]], whereas the claimed per-channel policy would yield
[[0,0],[0,0]]. -/
theorem C3_dc_offset_counterexample :
    (remove_dc_offset [[0, 0], [2, 2]]).toOption.map NpArray.flat =
      Option.some [-1, -1, 1, 1] ∧
    perChannelDcRemoved [[0, 0], [2, 2]] = [[0, 0], [0, 0]] ∧
    Option.some [(-1 : ℚ), -1, 1, 1] ≠ Option.some [(0 : ℚ), 0, 0, 0] := by
  refine ⟨rfl, by decide, by decide⟩

/-- C3 amended: for every rectangular window, `remove_dc_offset` subtracts
ONE global mean — the mean of all channels' samples pooled together — from
every sample of every channel (not each channel's own mean); the subtraction
still happens before `compute_band_powers` in both phases, as translated in
`calibTryBlock` and `gameTryBlock`. -/
theorem C3_dc_offset_amended (rows : List (List ℚ)) (harr : allEqLen rows = true) :
    ∃ arr, remove_dc_offset rows = Except.ok arr ∧
      arr.shape = [rows.length, (rows.headD []).length] ∧
      arr.flat = rows.flatten.map
        (fun x => x - rows.flatten.sum / (rows.flatten.length : ℚ)) := by
  refine ⟨⟨[rows.length, (rows.headD []).length],
    rows.flatten.map (fun x => x - rows.flatten.sum / (rows.flatten.length : ℚ))⟩,
    ?_, rfl, rfl⟩
  simp [remove_dc_offset, npFromRows, harr]

/-- C3 amended, witness: the rectangular window [[1,2],[3,4]]. -/
theorem C3_dc_offset_amended_witness :
    ∃ arr, remove_dc_offset [[1, 2], [3, 4]] = Except.ok arr ∧
      arr.shape = [([[(1 : ℚ), 2], [3, 4]]).length, (([[(1 : ℚ), 2], [3, 4]]).headD []).length] ∧
      arr.flat = ([[(1 : ℚ), 2], [3, 4]]).flatten.map
        (fun x => x - ([[(1 : ℚ), 2], [3, 4]]).flatten.sum /
          ((([[(1 : ℚ), 2], [3, 4]]).flatten.length : ℕ) : ℚ)) :=
  C3_dc_offset_amended [[1, 2], [3, 4]] (by decide)

/- ### Band-sum theorems: C6 -/

/-- The trapezoidal rule over the empty selection is 0. -/
lemma trapz_nil : trapz [] = 0 := rfl

/-- The trapezoidal rule over a single point is 0, as in numpy. -/
lemma trapz_single (a : ℚ × ℚ) : trapz [a] = 0 := rfl

/-- Unfolding of `trapz` on two or more points. -/
lemma trapz_cons_cons (a b : ℚ × ℚ) (t : List (ℚ × ℚ)) :
    trapz (a :: b :: t) = (b.1 - a.1) * (a.2 + b.2) / 2 + trapz (b :: t) := rfl

/-- Splitting the trapezoidal sum at an interior point: the segment lists
share the point `y`. -/
lemma trapz_append_cons (xs : List (ℚ × ℚ)) (y : ℚ × ℚ) (ys : List (ℚ × ℚ)) :
    trapz (xs ++ y :: ys) = trapz (xs ++ [y]) + trapz (y :: ys) := by
  induction xs with
  | nil =>
    simp only [List.nil_append, trapz_single]
    ring
  | cons x xs ih =>
    cases xs with
    | nil =>
      simp only [List.cons_append, List.nil_append, trapz_cons_cons, trapz_single]
      ring
    | cons x2 xs2 =>
      simp only [List.cons_append] at ih ⊢
      rw [trapz_cons_cons, trapz_cons_cons x x2 (xs2 ++ [y]), ih]
      ring

/-- Appending one point with a larger abscissa and a non-negative ordinate
can only add area. -/
lemma trapz_append_single_le (xs : List (ℚ × ℚ)) (y : ℚ × ℚ)
    (hs : (xs ++ [y]).Pairwise (fun p q => p.1 ≤ q.1))
    (hn : ∀ p ∈ xs ++ [y], 0 ≤ p.2) :
    trapz xs ≤ trapz (xs ++ [y]) := by
  induction xs with
  | nil => simp [trapz_nil, trapz_single]
  | cons x xs ih =>
    cases xs with
    | nil =>
      have hxy : x.1 ≤ y.1 :=
        (List.pairwise_cons.mp hs).1 y (by simp)
      have hx2 : 0 ≤ x.2 := hn x (by simp)
      have hy2 : 0 ≤ y.2 := hn y (by simp)
      have hseg : 0 ≤ (y.1 - x.1) * (x.2 + y.2) / 2 :=
        div_nonneg (mul_nonneg (sub_nonneg.mpr hxy) (add_nonneg hx2 hy2)) (by norm_num)
      simp only [List.cons_append, List.nil_append, trapz_single, trapz_cons_cons]
      simpa using hseg
    | cons x2 xs2 =>
      have hs' := (List.pairwise_cons.mp hs).2
      have hn' : ∀ p ∈ (x2 :: xs2) ++ [y], 0 ≤ p.2 := by
        intro p hp
        exact hn p (by simpa using Or.inr (by simpa using hp))
      have := ih hs' hn'
      simp only [List.cons_append] at this ⊢
      rw [trapz_cons_cons, trapz_cons_cons x x2 (xs2 ++ [y])]
      linarith

/-- Sub-additivity of the trapezoidal rule under concatenation of sorted,
non-negative point lists: the junction segment between the two parts is
dropped on the left-hand side, so the split sum can only be smaller. -/
lemma trapz_append_le (xs ys : List (ℚ × ℚ))
    (hs : (xs ++ ys).Pairwise (fun p q => p.1 ≤ q.1))
    (hn : ∀ p ∈ xs ++ ys, 0 ≤ p.2) :
    trapz xs + trapz ys ≤ trapz (xs ++ ys) := by
  cases ys with
  | nil => simp [trapz_nil]
  | cons y ys =>
    rw [trapz_append_cons]
    have hsub : (xs ++ [y]).Sublist (xs ++ y :: ys) :=
      ((List.nil_sublist ys).cons₂ y).append_left xs
    have h1 : trapz xs ≤ trapz (xs ++ [y]) :=
      trapz_append_single_le xs y (hs.sublist hsub) (fun p hp => hn p (hsub.mem hp))
    linarith

/-- A band partition of [lo, hi) forces lo ≤ hi. -/
lemma bandChain_le :
    ∀ (bnds : List (ℚ × ℚ)) (lo hi : ℚ), bandChain lo bnds hi = true → lo ≤ hi := by
  intro bnds
  induction bnds with
  | nil =>
    intro lo hi h
    simp only [bandChain, decide_eq_true_eq] at h
    exact le_of_eq h
  | cons b rest ih =>
    intro lo hi h
    simp only [bandChain, Bool.and_eq_true, decide_eq_true_eq] at h
    obtain ⟨⟨hb1, hb2⟩, hrest⟩ := h
    calc lo = b.1 := hb1.symm
    _ ≤ b.2 := hb2
    _ ≤ hi := ih b.2 hi hrest

/-- Splitting the half-open band filter at an interior point `m`: for a
frequency-sorted point list, the [lo, hi) selection is the [lo, m) selection
followed by the [m, hi) selection. -/
lemma filter_band_split (lo m hi : ℚ) (h1 : lo ≤ m) (h2 : m ≤ hi) :
    ∀ (l : List (ℚ × ℚ)), l.Pairwise (fun p q => p.1 ≤ q.1) →
      l.filter (fun p => inBand lo hi p.1) =
        l.filter (fun p => inBand lo m p.1) ++ l.filter (fun p => inBand m hi p.1) := by
  intro l
  induction l with
  | nil => simp
  | cons p t ih =>
    intro hs
    obtain ⟨hp, ht⟩ := List.pairwise_cons.mp hs
    by_cases hpm : p.1 < m
    · have e1 : inBand lo hi p.1 = inBand lo m p.1 := by
        simp only [inBand]
        apply decide_eq_decide.mpr
        constructor
        · rintro ⟨h, -⟩; exact ⟨h, hpm⟩
        · rintro ⟨h, -⟩; exact ⟨h, lt_of_lt_of_le hpm h2⟩
      have e2 : inBand m hi p.1 = false := by
        simp only [inBand, decide_eq_false_iff_not, not_and]
        intro hmp
        exact absurd hmp (not_le.mpr hpm)
      rw [List.filter_cons, List.filter_cons, List.filter_cons, e1, e2, ih ht]
      cases hc : inBand lo m p.1 <;> simp [hc]
    · push_neg at hpm
      have hallt : ∀ q ∈ t, m ≤ q.1 := fun q hq => le_trans hpm (hp q hq)
      have eL : (p :: t).filter (fun p => inBand lo m p.1) = [] := by
        rw [List.filter_eq_nil_iff]
        intro q hq
        simp only [inBand, decide_eq_true_eq, not_and]
        intro _
        rcases List.mem_cons.mp hq with rfl | hq'
        · exact not_lt.mpr hpm
        · exact not_lt.mpr (hallt q hq')
      have eC : (p :: t).filter (fun p => inBand lo hi p.1) =
          (p :: t).filter (fun p => inBand m hi p.1) := by
        apply List.filter_congr
        intro q hq
        have hmq : m ≤ q.1 := by
          rcases List.mem_cons.mp hq with rfl | hq'
          · exact hpm
          · exact hallt q hq'
        simp only [inBand]
        apply decide_eq_decide.mpr
        constructor
        · rintro ⟨-, h⟩; exact ⟨hmq, h⟩
        · rintro ⟨-, h⟩; exact ⟨le_trans h1 hmq, h⟩
      rw [eC, eL, List.nil_append]

/-- Core inequality behind the amended C6: over a frequency-sorted,
non-negative PSD point list, the per-band trapezoidal powers of a chain of
bands partitioning [lo, hi) sum to at most the [lo, hi) trapezoidal power —
each inter-band junction segment is dropped from the sum. -/
lemma sum_trapz_filter_le (l : List (ℚ × ℚ))
    (hs : l.Pairwise (fun p q => p.1 ≤ q.1)) (hn : ∀ p ∈ l, 0 ≤ p.2) :
    ∀ (bnds : List (ℚ × ℚ)) (lo hi : ℚ), bandChain lo bnds hi = true →
      (bnds.map (fun b => trapz (l.filter (fun p => inBand b.1 b.2 p.1)))).sum
        ≤ trapz (l.filter (fun p => inBand lo hi p.1)) := by
  intro bnds
  induction bnds with
  | nil =>
    intro lo hi h
    simp only [bandChain, decide_eq_true_eq] at h
    subst h
    have hempty : l.filter (fun p => inBand lo lo p.1) = [] := by
      rw [List.filter_eq_nil_iff]
      intro q hq
      simp only [inBand, decide_eq_true_eq, not_and]
      intro hle
      exact not_lt.mpr hle
    simp [hempty, trapz_nil]
  | cons b rest ih =>
    intro lo hi h
    simp only [bandChain, Bool.and_eq_true, decide_eq_true_eq] at h
    obtain ⟨⟨hb1, hb2⟩, hrest⟩ := h
    have hlom : lo ≤ b.2 := hb1 ▸ hb2
    have hmhi : b.2 ≤ hi := bandChain_le rest b.2 hi hrest
    have hsplit := filter_band_split lo b.2 hi hlom hmhi l hs
    have hs' : ((l.filter (fun p => inBand lo b.2 p.1)) ++
        (l.filter (fun p => inBand b.2 hi p.1))).Pairwise (fun p q => p.1 ≤ q.1) := by
      rw [← hsplit]
      exact hs.sublist (List.filter_sublist l)
    have hn' : ∀ p ∈ (l.filter (fun p => inBand lo b.2 p.1)) ++
        (l.filter (fun p => inBand b.2 hi p.1)), 0 ≤ p.2 := by
      rw [← hsplit]
      intro p hp
      exact hn p (List.mem_of_mem_filter hp)
    have happ := trapz_append_le _ _ hs' hn'
    have hihr := ih b.2 hi hrest
    rw [List.map_cons, List.sum_cons, hsplit, hb1]
    linarith

/-- C6 counterexample: a valid two-band partition of [0, 4) whose per-band
powers (0 and 50) sum to HALF the total-band power (100).  The PSD carries
its mass at the boundary bin 2 Hz; the trapezoid segment from 1 Hz to 2 Hz
belongs to neither [0, 2) (which stops at bin 1) nor [2, 4) (which starts at
bin 2), so its area 50 is counted by the total band only.  A discrepancy of
50 % of the total power is far beyond any numerical tolerance. -/
theorem C6_partition_sum_counterexample :
    compute_band_powers extC6 dataC6 64 (Option.some [("low", 0, 2), ("high", 2, 4)])
      (Option.some 1) (1 / 2) "constant" false false Option.none
      = Except.ok ([[FVal.val 0, FVal.val 50]], ["low", "high"]) ∧
    compute_band_powers extC6 dataC6 64 (Option.some [("tot", 0, 4)])
      (Option.some 1) (1 / 2) "constant" false false Option.none
      = Except.ok ([[FVal.val 100]], ["tot"]) ∧
    (0 : ℚ) + 50 ≠ 100 ∧
    (100 : ℚ) - ((0 : ℚ) + 50) = 50 := by
  refine ⟨rfl, rfl, by norm_num, by norm_num⟩

/-- C6 amended: for every valid band set partitioning the analyzed range
[lo, hi), and for every frequency-sorted PSD with non-negative values, the
sum of the per-band integrated powers is at most (not equal to, even within
tolerance) the integrated power over the total band: the trapezoid segments
that cross band boundaries are integrated by the total band but by no
individual band. -/
theorem C6_partition_sum_amended (freqs row : List ℚ) (bnds : List (ℚ × ℚ)) (lo hi : ℚ)
    (hs : (freqs.zip row).Pairwise (fun p q => p.1 ≤ q.1))
    (hn : ∀ p ∈ freqs.zip row, 0 ≤ p.2)
    (hchain : bandChain lo bnds hi = true) :
    (bnds.map (fun b => bandPower freqs row b.1 b.2)).sum ≤ bandPower freqs row lo hi := by
  simpa [bandPower, bandPoints] using
    sum_trapz_filter_le (freqs.zip row) hs hn bnds lo hi hchain

/-- C6 amended, witness: the two-band partition [0,1), [1,2) of [0, 2) over
a flat unit PSD at 0, 1, 2 Hz. -/
theorem C6_partition_sum_amended_witness :
    (([((0 : ℚ), (1 : ℚ)), (1, 2)]).map
      (fun b => bandPower [0, 1, 2] [1, 1, 1] b.1 b.2)).sum
      ≤ bandPower [0, 1, 2] [1, 1, 1] 0 2 :=
  C6_partition_sum_amended [0, 1, 2] [1, 1, 1] [(0, 1), (1, 2)] 0 2
    (by decide) (by decide) (by decide)
